import Mathlib

/-!
# Verification of the VILS backend against its specification

Shallow embedding of the relevant parts of the VILS backend
(`backend/src/services/binary_search.py`, `backend/src/api/tasks.py`,
`backend/src/api/builds.py`, `backend/src/auth/security.py`,
`backend/src/auth/dependencies.py`, `backend/src/models/task.py`) in Lean 4,
together with theorems settling the claims about it.

Conventions used throughout:
* list indices and sequence counters are `ℕ` (they index Python lists);
* Python's exact-real arithmetic on small quotients is modelled with `ℚ`
  (the float error of `d / 11.0 * i` is far below the `1/11` gap to the
  nearest integer for any realistic index range, so `int(interval * i)`
  agrees with the rational floor `d * i / 11`);
* database rows are records, tables are lists of records, SQLAlchemy
  `query(...).first()` is `List.find?`, `func.count` is `List.countP`;
* a raised `HTTPException` is the `.error` branch of an `Except`;
* Python's stable `list.sort` is `List.insertionSort (· ≤ ·)`.
-/

namespace Vils

/-! ## Binary search engine (`services/binary_search.py`) -/

/-- The candidate position computed for loop index `i` in
`BinarySearchEngine.generate_candidates`:
`position = good_index + int(interval * i)` with
`interval = (bad_index - good_index) / 11.0`, i.e. the rational floor
`good + (bad - good) * i / 11`. -/
def candPos (good bad i : ℕ) : ℕ :=
  good + (bad - good) * i / 11

/-- The `for i in range(1, 11)` accumulation loop of
`BinarySearchEngine.generate_candidates`: positions are appended when they are
strictly inside `(good, bad)` and not already collected. `candLoop good bad n`
is the list after the first `n` loop iterations (loop indices `1 .. n`). -/
def candLoop (good bad : ℕ) : ℕ → List ℕ
  | 0 => []
  | n + 1 =>
    let prev := candLoop good bad n
    let pos := candPos good bad (n + 1)
    if pos < bad ∧ good < pos ∧ pos ∉ prev then prev ++ [pos] else prev

/-- The backfill loop of `BinarySearchEngine.generate_candidates`: scan the
strictly-between indices in order, appending indices not among the originally
used positions, stopping once 10 candidates are accumulated. -/
def fillLoop (used : List ℕ) : List ℕ → List ℕ → List ℕ
  | acc, [] => acc
  | acc, i :: rest =>
    if 10 ≤ acc.length then acc
    else if i ∈ used then fillLoop used acc rest
    else fillLoop used (acc ++ [i]) rest

/-- The final re-sampling step of `BinarySearchEngine.generate_candidates`:
when more than 10 candidates accumulated, keep the entries at indices
`int(i * step)` for `i = 0 .. 9` with `step = len(candidates) / 10.0`. -/
def resample (cands : List ℕ) : List ℕ :=
  if 10 < cands.length then
    (List.range 10).map (fun i => cands.getD (i * cands.length / 10) 0)
  else cands

/-- `BinarySearchEngine.generate_candidates(good_index, bad_index)`, reduced to
the candidate positions (the attached `TagInfo` payload is the tag at that
position and carries no extra information). `none` models the `ValueError`
raised when `bad_index <= good_index`. -/
def generate_candidates (good bad : ℕ) : Option (List ℕ) :=
  if bad ≤ good then none
  else
    let range_size := bad - good - 1
    if range_size ≤ 10 then
      some (List.range' (good + 1) range_size)
    else
      let initial := List.insertionSort (· ≤ ·) (candLoop good bad 10)
      if initial.length < 10 then
        some (resample (List.insertionSort (· ≤ ·)
          (fillLoop initial initial (List.range' (good + 1) range_size))))
      else
        some initial

/-- `BinarySearchState` from `services/binary_search.py` (the fields used by
`update_range`; `current_iteration` and `total_tags` are carried along
unchanged and unread). -/
structure BinarySearchState where
  good_index : ℕ
  bad_index : ℕ
  current_iteration : ℕ
  tested_tags : List (String × String)
  total_tags : ℕ

/-- `BinarySearchEngine.find_tag_index`: index of the first tag whose id
matches, `none` when absent. The engine's tag list is reduced to the list of
tag ids, which is all this function inspects. -/
def find_tag_index (tags : List String) (tag_id : String) : Option ℕ :=
  tags.findIdx? (fun t => t == tag_id)

/-- One step of the "find the rightmost working tag" loop of
`BinarySearchEngine.update_range`. -/
def goodStep (tags : List String) (acc : ℕ) (p : String × String) : ℕ :=
  if p.2 = "working" then
    match find_tag_index tags p.1 with
    | some i => max acc i
    | none => acc
  else acc

/-- One step of the "find the leftmost broken tag" loop of
`BinarySearchEngine.update_range`. -/
def badStep (tags : List String) (acc : ℕ) (p : String × String) : ℕ :=
  if p.2 = "broken" then
    match find_tag_index tags p.1 with
    | some i => min acc i
    | none => acc
  else acc

/-- The "find the rightmost working tag" loop of
`BinarySearchEngine.update_range`. -/
def newGoodIndex (tags : List String) (good : ℕ)
    (feedback : List (String × String)) : ℕ :=
  feedback.foldl (goodStep tags) good

/-- The "find the leftmost broken tag" loop of
`BinarySearchEngine.update_range`. -/
def newBadIndex (tags : List String) (bad : ℕ)
    (feedback : List (String × String)) : ℕ :=
  feedback.foldl (badStep tags) bad

/-- `BinarySearchEngine.update_range(state, feedback)`: the returned
`(new_good, new_bad)` pair. The method also merges `feedback` into
`state.tested_tags`, which does not influence the returned bounds. -/
def update_range (tags : List String) (state : BinarySearchState)
    (feedback : List (String × String)) : ℕ × ℕ :=
  (newGoodIndex tags state.good_index feedback,
   newBadIndex tags state.bad_index feedback)

/-- `BinarySearchEngine.is_complete`. -/
def is_complete (good_index bad_index : ℕ) : Bool :=
  bad_index - good_index == 1

/-- `BinarySearchEngine.calculate_progress`. Exact-rational model of the float
formula `min(100, max(0, (1 - current_range / total_tags) * 100))`. With `ℕ`
indices, `bad - good - 1 = 0` holds exactly when the Python integer
`bad_index - good_index - 1` is `<= 0`. -/
def calculate_progress (good_index bad_index total_tags : ℕ) : ℚ :=
  if total_tags ≤ 1 then 100
  else
    let current_range := bad_index - good_index - 1
    if current_range = 0 then 100
    else min 100 (max 0 ((1 - (current_range : ℚ) / (total_tags : ℚ)) * 100))

/-! ## Task data model and Tasks API (`models/task.py`, `api/tasks.py`) -/

/-- A row of the `tags` table, with the columns read by `create_task`.
`sequence_number` is a nullable integer column. -/
structure TagRec where
  project_id : ℕ
  branch_id : ℕ
  name : String
  sequence_number : Option ℤ

/-- A row of the `projects` table (columns read by `create_task`). -/
structure ProjectRec where
  id : ℕ
  created_by : ℕ

/-- A row of the `branches` table (columns read by `create_task`). -/
structure BranchRec where
  id : ℕ
  project_id : ℕ

/-- The tables consulted by `create_task`. -/
structure TaskDB where
  projects : List ProjectRec
  branches : List BranchRec
  tags : List TagRec

/-- The `TaskCreate` request body fields used by `create_task`. -/
structure TaskCreate where
  project_id : ℕ
  branch_id : ℕ
  good_tag_name : String
  bad_tag_name : String

/-- The `HTTPException`s `create_task` can raise. -/
inductive CreateTaskError
  | projectNotFound
  | branchNotFound
  | goodTagNotFound
  | badTagNotFound
  | badTagOrder
deriving DecidableEq

/-- The tag-lookup predicate of `create_task` (name, project and branch all
match). -/
def tagLookup (req : TaskCreate) (tagName : String) (t : TagRec) : Bool :=
  t.name == tagName && t.project_id == req.project_id && t.branch_id == req.branch_id

/-- The SQL filter of `create_task`'s `func.count` query:
`sequence_number >= good.sequence_number AND sequence_number <= bad.sequence_number`
under SQL three-valued logic — a comparison against NULL is not satisfied. -/
def seqBetween (lo hi s : Option ℤ) : Bool :=
  match lo, hi, s with
  | some l, some h, some v => l ≤ v && v ≤ h
  | _, _, _ => false

/-- The row-counting predicate of `create_task`'s range query. -/
def tagInRange (req : TaskCreate) (good bad : TagRec) (t : TagRec) : Bool :=
  t.project_id == req.project_id && t.branch_id == req.branch_id &&
    seqBetween good.sequence_number bad.sequence_number t.sequence_number

/-- `create_task` (`api/tasks.py`), reduced to its validation chain and the
`total_tags_in_range` value stored on the created task: project lookup
(filtered by owner), branch lookup, good/bad tag lookup, the
`(good.sequence_number or 0) >= (bad.sequence_number or 0)` ordering check,
then the inclusive range count. `.ok n` means the task is created with
`total_tags_in_range = n`; `.error e` means the request is rejected and no
task is created. -/
def create_task (db : TaskDB) (userId : ℕ) (req : TaskCreate) :
    Except CreateTaskError ℕ :=
  match db.projects.find? (fun p => p.id == req.project_id && p.created_by == userId) with
  | none => .error .projectNotFound
  | some _ =>
    match db.branches.find? (fun b => b.id == req.branch_id && b.project_id == req.project_id) with
    | none => .error .branchNotFound
    | some _ =>
      match db.tags.find? (tagLookup req req.good_tag_name) with
      | none => .error .goodTagNotFound
      | some good_tag =>
        match db.tags.find? (tagLookup req req.bad_tag_name) with
        | none => .error .badTagNotFound
        | some bad_tag =>
          if bad_tag.sequence_number.getD 0 ≤ good_tag.sequence_number.getD 0 then
            .error .badTagOrder
          else
            .ok (db.tags.countP (tagInRange req good_tag bad_tag))

/-- The fields of the `TaskIteration` row constructed by
`select_candidates_for_testing` that matter to the `check_range_valid`
constraint, plus the captured selection. -/
structure TaskIterationRec where
  task_id : ℕ
  iteration_number : ℕ
  search_range_start : ℤ
  search_range_end : ℤ
  selected_indices : List ℕ
deriving DecidableEq

/-- The schema constraint `check_range_valid` on `task_iterations`
(`models/task.py`): `search_range_end > search_range_start`. -/
def check_range_valid (it : TaskIterationRec) : Prop :=
  it.search_range_end > it.search_range_start

/-- The `HTTPException`s of `select_candidates_for_testing` (the task-lookup
404 is modelled upstream: the task's status and iteration counter are passed
as the fields of the row the handler found). -/
inductive SelectError
  | taskNotActive
  | badCandidateCount
deriving DecidableEq

/-- `select_candidates_for_testing` (`api/tasks.py`): after the status and
3–5-candidate checks, the handler constructs a `TaskIteration` with literal
`search_range_start=0, search_range_end=0` (the source comments say "Will be
updated with actual values", but no update happens before `db.commit()`). -/
def select_candidates_for_testing (taskStatus : String) (currentIteration : ℕ)
    (taskId : ℕ) (candidate_indices : List ℕ) :
    Except SelectError TaskIterationRec :=
  if taskStatus ≠ "active" then .error .taskNotActive
  else if candidate_indices.length < 3 ∨ 5 < candidate_indices.length then
    .error .badCandidateCount
  else
    .ok { task_id := taskId
          iteration_number := currentIteration + 1
          search_range_start := 0
          search_range_end := 0
          selected_indices := candidate_indices }

/-! ## Auth (`auth/security.py`, `auth/dependencies.py`) -/

/-- The claim set of a JWT issued or checked by this codebase:
`sub`, `user_id`, `scopes`, `exp`, `type`. -/
structure JwtPayload where
  sub : Option String
  user_id : Option String
  scopes : List String
  exp : ℕ
  type : Option String
deriving DecidableEq

/-- A JWT as handled by the `jose` library calls of `auth/security.py`:
its payload plus the key it was signed with. -/
structure Jwt where
  payload : JwtPayload
  key : String
deriving DecidableEq

/-- Model of the external `jose.jwt.decode(token, key, algorithms)` call:
returns the payload when the signature verifies against `key` and the token
is unexpired at `now`; the `JWTError`s it raises on signature mismatch or
expiry are modelled as `none` (they are caught in `verify_token`). -/
def jwt_decode (now : ℕ) (token : Jwt) (key : String) : Option JwtPayload :=
  if token.key ≠ key then none
  else if token.payload.exp ≤ now then none
  else some token.payload

/-- `TokenData` from `auth/security.py`, as populated on the success path of
`verify_token` (there `username` is the non-null `sub` claim). -/
structure TokenData where
  username : String
  user_id : Option String
  scopes : List String
deriving DecidableEq

/-- `verify_token(token, token_type)` from `auth/security.py`: decode (any
`JWTError` yields `None`), reject a `type` claim differing from the requested
type, reject a missing `sub`, else return the token data. `none` models the
Python `None` result; the Lean function is total, matching the "never throws
past this boundary" behaviour. -/
def verify_token (now : ℕ) (secret : String) (token : Jwt)
    (token_type : String) : Option TokenData :=
  match jwt_decode now token secret with
  | none => none
  | some payload =>
    if payload.type ≠ some token_type then none
    else
      match payload.sub with
      | none => none
      | some username => some ⟨username, payload.user_id, payload.scopes⟩

/-- A row of the `users` table (columns read by `get_current_user`). -/
structure UserRec where
  username : String
  is_active : Bool
deriving DecidableEq

/-- An `HTTPException` as raised by `get_current_user`: status code, detail,
and the optional `WWW-Authenticate` challenge header. -/
structure AuthError where
  status_code : ℕ
  detail : String
  www_authenticate : Option String
deriving DecidableEq

/-- The `authenticate_value` computed at the top of `get_current_user`. -/
def authenticateValue (requiredScopes : List String) : String :=
  if requiredScopes ≠ [] then
    "Bearer scope=\"" ++ String.intercalate " " requiredScopes ++ "\""
  else "Bearer"

/-- The `credentials_exception` of `get_current_user`: 401 with a
`WWW-Authenticate` challenge header. -/
def credentialsException (requiredScopes : List String) : AuthError :=
  ⟨401, "Could not validate credentials", some (authenticateValue requiredScopes)⟩

/-- `get_current_user` (`auth/dependencies.py`): verify the bearer token as an
access token, resolve the user by username, reject inactive accounts, then
check scopes. Invalid token and missing user raise the 401
`credentials_exception`; an inactive account raises
`HTTP_400_BAD_REQUEST, "Inactive user"` with no challenge header; a missing
scope raises 403. -/
def get_current_user (now : ℕ) (secret : String) (requiredScopes : List String)
    (token : Jwt) (users : List UserRec) : Except AuthError UserRec :=
  match verify_token now secret token "access" with
  | none => .error (credentialsException requiredScopes)
  | some token_data =>
    match users.find? (fun u => u.username == token_data.username) with
    | none => .error (credentialsException requiredScopes)
    | some user =>
      if ¬ user.is_active then .error ⟨400, "Inactive user", none⟩
      else
        match requiredScopes.find? (fun s => ¬ token_data.scopes.contains s) with
        | some _ => .error ⟨403, "Not enough permissions",
            some (authenticateValue requiredScopes)⟩
        | none => .ok user

/-! ## Builds API (`api/builds.py`) -/

/-- A row of the `user_feedback` table (columns written by
`submit_build_feedback`). -/
structure FeedbackRow where
  task_id : ℕ
  iteration_id : ℕ
  build_job_id : ℕ
  tag_id : ℕ
  feedback_type : String
  notes : Option String
  created_by : ℕ
deriving DecidableEq

/-- A `build_jobs` row joined with its owning task, as queried by
`submit_build_feedback` (`task_user_id` is `LocalizationTask.user_id` from the
join). -/
structure BuildJobRow where
  id : ℕ
  task_id : ℕ
  iteration_id : ℕ
  tag_id : ℕ
  task_user_id : ℕ
deriving DecidableEq

/-- The in-place update of the first matching `UserFeedback` row
(`query(...).first()` followed by attribute assignment and `commit`). -/
def updateFirstFeedback (bid : ℕ) (ftype : String) (notes : Option String) :
    List FeedbackRow → List FeedbackRow
  | [] => []
  | r :: rest =>
    if r.build_job_id == bid then
      { r with feedback_type := ftype, notes := notes } :: rest
    else r :: updateFirstFeedback bid ftype notes rest

/-- `submit_build_feedback` (`api/builds.py`) as a transformer of the
`user_feedback` table: resolve the build job (joined with the owning task,
404 otherwise), then update the existing feedback row for this build job in
place, or insert a fresh row. -/
def submit_build_feedback (jobs : List BuildJobRow) (rows : List FeedbackRow)
    (userId bid : ℕ) (ftype : String) (notes : Option String) :
    Except Unit (List FeedbackRow) :=
  match jobs.find? (fun j => j.id == bid && j.task_user_id == userId) with
  | none => .error ()
  | some job =>
    match rows.find? (fun r => r.build_job_id == bid) with
    | some _ => .ok (updateFirstFeedback bid ftype notes rows)
    | none =>
      .ok (rows ++ [⟨job.task_id, job.iteration_id, bid, job.tag_id, ftype, notes, userId⟩])

/-- The columns of a `build_jobs` row read and written by `cancel_build`. -/
structure CancelJobRec where
  status : String
  completed_at : Option ℕ
  external_build_id : Option String
deriving DecidableEq

/-- Outcome of the external `build_service.cancel_build` call: a returned
boolean, or a raised exception (also covering a failing
`BuildServiceFactory.create_service`). -/
inductive ExtCancelOutcome
  | ok (success : Bool)
  | exn
deriving DecidableEq

/-- The response body of `cancel_build`. -/
inductive CancelResult
  | alreadyCompleted (status : String)
  | cancelled (message : String) (external_cancellation : Bool) (status : String)
deriving DecidableEq

/-- `cancel_build` (`api/builds.py`): jobs already in a terminal state are
reported unchanged; otherwise the external cancellation is attempted when an
external build id and an active service config exist (exceptions swallowed,
`success` stays `False`), and the local record is unconditionally marked
`cancelled` with `completed_at` stamped if unset. Returns the updated row and
the response. -/
def cancel_build (now : ℕ) (job : CancelJobRec) (hasServiceConfig : Bool)
    (ext : ExtCancelOutcome) : CancelJobRec × CancelResult :=
  if ["success", "failed", "cancelled"].contains job.status then
    (job, .alreadyCompleted job.status)
  else
    let success :=
      match job.external_build_id with
      | none => false
      | some _ =>
        match ext with
        | .exn => false
        | .ok b => if hasServiceConfig then b else false
    let job2 : CancelJobRec :=
      { job with
          status := "cancelled"
          completed_at := some (job.completed_at.getD now) }
    (job2, .cancelled
      (if success then "Build cancelled" else "Build marked as cancelled locally")
      success "cancelled")

/-! ## Candidates endpoint and session frame (`api/tasks.py`,
`api/builds.py`) -/

/-- A row of the `task_sessions` table (the bound columns read and written by
the candidates endpoint). -/
structure SessionRec where
  current_range_start : ℕ
  current_range_end : ℕ
deriving DecidableEq

/-- The per-task state visible to the candidates and build-feedback
endpoints: the task's status, iteration counter and final tag, its (unique)
session if any, and the `user_feedback` table. -/
structure TaskState where
  task_status : String
  current_iteration : ℕ
  final_problematic_tag : Option ℕ
  session : Option SessionRec
  feedback_rows : List FeedbackRow
deriving DecidableEq

/-- The response of the candidates endpoint: iteration number, the range it
operated on, the candidate positions, and the completion flag. -/
structure CandidatesResponse where
  iteration_number : ℕ
  range_start : ℕ
  range_end : ℕ
  candidates : List ℕ
  is_complete : Bool
deriving DecidableEq

/-- `get_binary_search_candidates` (`api/tasks.py`) as a state transformer
over `TaskState` (task-lookup 404 modelled upstream; `numTags` is the number
of tags in the `[good.sequence, bad.sequence]` range). A missing session is
seeded with `(0, numTags - 1)`; an adjacent range completes the task; an
inverted range would make `generate_candidates` raise (`.error`). -/
def get_binary_search_candidates (numTags : ℕ) (st : TaskState) :
    Except Unit (TaskState × CandidatesResponse) :=
  if st.task_status ≠ "active" then .error ()
  else if numTags < 3 then .error ()
  else
    let seeded :=
      match st.session with
      | none =>
        let s : SessionRec := ⟨0, numTags - 1⟩
        (s, { st with session := some s })
      | some s => (s, st)
    let good := seeded.1.current_range_start
    let bad := seeded.1.current_range_end
    let st1 := seeded.2
    if is_complete good bad then
      .ok ({ st1 with task_status := "completed", final_problematic_tag := some bad },
        ⟨st1.current_iteration, good, bad, [], true⟩)
    else
      match generate_candidates good bad with
      | none => .error ()
      | some cs => .ok (st1, ⟨st1.current_iteration + 1, good, bad, cs, false⟩)

/-- `submit_build_feedback` as a transformer of the same `TaskState`: the
handler reads `build_jobs` and reads/writes only the `user_feedback` table —
captured here by updating only the `feedback_rows` component. -/
def submit_build_feedback_endpoint (jobs : List BuildJobRow) (st : TaskState)
    (userId bid : ℕ) (ftype : String) (notes : Option String) :
    Except Unit TaskState :=
  match submit_build_feedback jobs st.feedback_rows userId bid ftype notes with
  | .error () => .error ()
  | .ok rows => .ok { st with feedback_rows := rows }

/-! ## Theorems: binary search candidate generation (C1) -/

theorem candPos_lt_succ (good bad : ℕ) (h : 11 ≤ bad - good) (i : ℕ) :
    candPos good bad i < candPos good bad (i + 1) := by
  unfold candPos
  have h1 : (bad - good) * i + 11 ≤ (bad - good) * (i + 1) := by
    rw [Nat.mul_succ]; omega
  have h2 : ((bad - good) * i + 11) / 11 = (bad - good) * i / 11 + 1 :=
    Nat.add_div_right _ (by norm_num)
  have h3 := Nat.div_le_div_right (c := 11) h1
  omega

theorem candPos_strictMono (good bad : ℕ) (h : 11 ≤ bad - good) :
    StrictMono (candPos good bad) :=
  strictMono_nat_of_lt_succ (candPos_lt_succ good bad h)

theorem candPos_gt_good (good bad i : ℕ) (h : 11 ≤ bad - good) (hi : 1 ≤ i) :
    good < candPos good bad i := by
  have h1 : candPos good bad 1 ≤ candPos good bad i :=
    (candPos_strictMono good bad h).monotone hi
  have h2 : 1 ≤ (bad - good) / 11 := (Nat.one_le_div_iff (by norm_num)).2 h
  have h3 : candPos good bad 1 = good + (bad - good) / 11 := by
    unfold candPos; rw [Nat.mul_one]
  omega

theorem candPos_lt_bad (good bad i : ℕ) (hgb : good < bad) (h11 : 11 ≤ bad - good)
    (hi : i ≤ 10) : candPos good bad i < bad := by
  unfold candPos
  have hd : 0 < bad - good := by omega
  have h1 : (bad - good) * i / 11 < bad - good := by
    apply Nat.div_lt_of_lt_mul
    have h2 := Nat.mul_le_mul_left (bad - good) hi
    nlinarith
  omega

theorem candLoop_eq (good bad : ℕ) (hgb : good < bad) (h11 : 11 ≤ bad - good) :
    ∀ n, n ≤ 10 → candLoop good bad n = (List.range' 1 n).map (candPos good bad) := by
  intro n
  induction n with
  | zero => intro _; rfl
  | succ n ih =>
    intro hn
    have hrec := ih (by omega)
    have hlt : candPos good bad (n + 1) < bad := candPos_lt_bad good bad _ hgb h11 hn
    have hgt : good < candPos good bad (n + 1) := candPos_gt_good good bad _ h11 (by omega)
    have hnotmem : candPos good bad (n + 1) ∉ (List.range' 1 n).map (candPos good bad) := by
      intro hmem
      obtain ⟨j, hj, hje⟩ := List.mem_map.1 hmem
      have hj2 := List.mem_range'_1.1 hj
      have : candPos good bad j < candPos good bad (n + 1) :=
        candPos_strictMono good bad h11 (by omega)
      omega
    show (if candPos good bad (n + 1) < bad ∧ good < candPos good bad (n + 1) ∧
        candPos good bad (n + 1) ∉ candLoop good bad n then
          candLoop good bad n ++ [candPos good bad (n + 1)]
        else candLoop good bad n) = _
    rw [hrec, if_pos ⟨hlt, hgt, hnotmem⟩, List.range'_concat]
    simp only [List.map_append, List.map_cons, List.map_nil]
    rw [Nat.one_mul, Nat.add_comm 1 n]

theorem candLoop10_props (good bad : ℕ) (hgb : good < bad) (h11 : 11 ≤ bad - good) :
    (candLoop good bad 10).length = 10 ∧
    (candLoop good bad 10).Sorted (· < ·) ∧
    ∀ p ∈ candLoop good bad 10, good < p ∧ p < bad := by
  rw [candLoop_eq good bad hgb h11 10 (le_refl 10)]
  refine ⟨by simp, ?_, ?_⟩
  · rw [List.Sorted, List.pairwise_map]
    refine (List.pairwise_lt_range' 1 10).imp ?_
    intro a b hab
    exact candPos_strictMono good bad h11 hab
  · intro p hp
    obtain ⟨j, hj, rfl⟩ := List.mem_map.1 hp
    have hj2 := List.mem_range'_1.1 hj
    exact ⟨candPos_gt_good good bad _ h11 (by omega),
      candPos_lt_bad good bad _ hgb h11 (by omega)⟩

/-- C1: `generate_candidates` returns exactly 10 pairwise-distinct, strictly
increasing candidate positions, each strictly between `good_index` and
`bad_index`, whenever `bad_index - good_index - 1 > 10` (with
`good_index=0, bad_index=24` giving `[2,4,6,8,10,13,15,17,19,21]`); and for
`0 < bad_index - good_index - 1 <= 10` it returns every index strictly
between the two bounds in ascending order (with `good_index=5, bad_index=9`
giving `[6,7,8]`). -/
theorem generate_candidates_spec (good bad : ℕ) :
    (10 < bad - good - 1 →
      ∃ l, generate_candidates good bad = some l ∧ l.length = 10 ∧
        l.Sorted (· < ·) ∧ ∀ p ∈ l, good < p ∧ p < bad) ∧
    (0 < bad - good - 1 → bad - good - 1 ≤ 10 →
      generate_candidates good bad = some (List.range' (good + 1) (bad - good - 1))) ∧
    generate_candidates 0 24 = some [2, 4, 6, 8, 10, 13, 15, 17, 19, 21] ∧
    generate_candidates 5 9 = some [6, 7, 8] := by
  refine ⟨?_, ?_, by decide, by decide⟩
  · intro h
    have hgb : good < bad := by omega
    have h11 : 11 ≤ bad - good := by omega
    obtain ⟨hlen, hsort, hbetween⟩ := candLoop10_props good bad hgb h11
    have hins : List.insertionSort (· ≤ ·) (candLoop good bad 10) = candLoop good bad 10 :=
      List.Sorted.insertionSort_eq (hsort.imp le_of_lt)
    refine ⟨candLoop good bad 10, ?_, hlen, hsort, hbetween⟩
    unfold generate_candidates
    rw [if_neg (by omega)]
    simp only [hins]
    rw [if_neg (by omega), if_neg (by omega)]
  · intro h1 h2
    unfold generate_candidates
    rw [if_neg (by omega), if_pos h2]

/-- Witness for C1 at `good_index = 0, bad_index = 24`. -/
theorem generate_candidates_spec_witness :
    ∃ l, generate_candidates 0 24 = some l ∧ l.length = 10 ∧
      l.Sorted (· < ·) ∧ ∀ p ∈ l, 0 < p ∧ p < 24 :=
  (generate_candidates_spec 0 24).1 (by decide)

/-! ## Theorems: range narrowing (C4) -/

theorem goodStep_ge (tags : List String) (acc : ℕ) (p : String × String) :
    acc ≤ goodStep tags acc p := by
  unfold goodStep
  split
  · split
    · exact le_max_left _ _
    · exact le_refl acc
  · exact le_refl acc

theorem badStep_le (tags : List String) (acc : ℕ) (p : String × String) :
    badStep tags acc p ≤ acc := by
  unfold badStep
  split
  · split
    · exact min_le_left _ _
    · exact le_refl acc
  · exact le_refl acc

theorem le_newGoodIndex (tags : List String) (fb : List (String × String)) :
    ∀ g : ℕ, g ≤ newGoodIndex tags g fb := by
  unfold newGoodIndex
  induction fb with
  | nil => intro g; exact le_refl g
  | cons p rest ih =>
    intro g
    rw [List.foldl_cons]
    exact le_trans (goodStep_ge tags g p) (ih _)

theorem newBadIndex_le (tags : List String) (fb : List (String × String)) :
    ∀ b : ℕ, newBadIndex tags b fb ≤ b := by
  unfold newBadIndex
  induction fb with
  | nil => intro b; exact le_refl b
  | cons p rest ih =>
    intro b
    rw [List.foldl_cons]
    exact le_trans (ih _) (badStep_le tags b p)

theorem newGoodIndex_frozen (tags : List String) (g : ℕ) :
    ∀ (fb : List (String × String)) (acc : ℕ), g ≤ acc →
    (∀ t v, (t, v) ∈ fb → v = "working" →
      ∀ i, find_tag_index tags t = some i → i < g) →
    List.foldl (goodStep tags) acc fb = acc := by
  intro fb
  induction fb with
  | nil => intro acc _ _; rfl
  | cons p rest ih =>
    intro acc hacc H
    rw [List.foldl_cons]
    have hstep : goodStep tags acc p = acc := by
      unfold goodStep
      split
      next hw =>
        split
        next i hi =>
          have hlt := H p.1 p.2 (by simp) hw i hi
          omega
        next => rfl
      next => rfl
    rw [hstep]
    exact ih acc hacc (fun t v hm => H t v (List.mem_cons_of_mem p hm))

theorem newBadIndex_frozen (tags : List String) (b : ℕ) :
    ∀ (fb : List (String × String)) (acc : ℕ), acc ≤ b →
    (∀ t v, (t, v) ∈ fb → v = "broken" →
      ∀ i, find_tag_index tags t = some i → b < i) →
    List.foldl (badStep tags) acc fb = acc := by
  intro fb
  induction fb with
  | nil => intro acc _ _; rfl
  | cons p rest ih =>
    intro acc hacc H
    rw [List.foldl_cons]
    have hstep : badStep tags acc p = acc := by
      unfold badStep
      split
      next hw =>
        split
        next i hi =>
          have hlt := H p.1 p.2 (by simp) hw i hi
          omega
        next => rfl
      next => rfl
    rw [hstep]
    exact ih acc hacc (fun t v hm => H t v (List.mem_cons_of_mem p hm))

/-- C4: `update_range` never moves `good_index` down nor `bad_index` up; a
"working" verdict only on tags strictly below the current good index leaves
the good index unchanged; a "broken" verdict only on tags strictly above the
current bad index leaves the bad index unchanged; an empty feedback map
changes neither bound, and the bounds are independent of the previously
tested tags recorded in the state. -/
theorem update_range_spec (tags : List String) (state : BinarySearchState)
    (fb : List (String × String)) :
    state.good_index ≤ (update_range tags state fb).1 ∧
    (update_range tags state fb).2 ≤ state.bad_index ∧
    ((∀ t v, (t, v) ∈ fb → v = "working" →
        ∀ i, find_tag_index tags t = some i → i < state.good_index) →
      (update_range tags state fb).1 = state.good_index) ∧
    ((∀ t v, (t, v) ∈ fb → v = "broken" →
        ∀ i, find_tag_index tags t = some i → state.bad_index < i) →
      (update_range tags state fb).2 = state.bad_index) ∧
    update_range tags state [] = (state.good_index, state.bad_index) ∧
    (∀ tested : List (String × String),
      update_range tags { state with tested_tags := tested } fb =
        update_range tags state fb) := by
  refine ⟨le_newGoodIndex tags fb state.good_index,
    newBadIndex_le tags fb state.bad_index, ?_, ?_, rfl, fun _ => rfl⟩
  · intro H
    exact newGoodIndex_frozen tags state.good_index fb state.good_index (le_refl _) H
  · intro H
    exact newBadIndex_frozen tags state.bad_index fb state.bad_index (le_refl _) H

/-- Witness for C4 on a concrete state and feedback map: a "working" verdict
on tag index 0 below `good_index = 2` leaves both bounds unchanged. -/
theorem update_range_spec_witness :
    (update_range ["t0", "t1", "t2", "t3"] ⟨2, 3, 1, [], 4⟩
      [("t0", "working")]).1 = 2 ∧
    (update_range ["t0", "t1", "t2", "t3"] ⟨2, 3, 1, [], 4⟩
      [("t0", "working")]).2 = 3 :=
  ⟨(update_range_spec ["t0", "t1", "t2", "t3"] ⟨2, 3, 1, [], 4⟩
      [("t0", "working")]).2.2.1
      (by
        intro t v hm hv i hi
        simp only [List.mem_singleton, Prod.mk.injEq] at hm
        obtain ⟨rfl, rfl⟩ := hm
        have h0 : find_tag_index ["t0", "t1", "t2", "t3"] "t0" = some 0 := rfl
        rw [h0] at hi
        injection hi with hi
        show i < 2
        omega),
   (update_range_spec ["t0", "t1", "t2", "t3"] ⟨2, 3, 1, [], 4⟩
      [("t0", "working")]).2.2.2.1
      (by
        intro t v hm hv i hi
        simp only [List.mem_singleton, Prod.mk.injEq] at hm
        obtain ⟨rfl, rfl⟩ := hm
        exact absurd hv (by decide))⟩

/-! ## Theorems: progress computation (C5) -/

theorem calculate_progress_formula (c t : ℕ) (hc : 0 < c) (hct : c ≤ t) (ht : 2 ≤ t) :
    min 100 (max 0 ((1 - (c : ℚ) / (t : ℚ)) * 100)) = (1 - (c : ℚ) / (t : ℚ)) * 100 ∧
    (1 - (c : ℚ) / (t : ℚ)) * 100 < 100 := by
  have htq : (0 : ℚ) < (t : ℚ) := by positivity
  have h1 : (c : ℚ) / (t : ℚ) ≤ 1 := by
    rw [div_le_one htq]
    exact_mod_cast hct
  have h2 : (0 : ℚ) < (c : ℚ) / (t : ℚ) := by positivity
  constructor
  · rw [max_eq_right (by nlinarith), min_eq_right (by nlinarith)]
  · nlinarith

/-- C5 counterexample: with `total_tags = 5`, shrinking the strictly-between
count from 10 (`good=0, bad=11`) to 9 (`good=0, bad=10`) leaves the returned
value clamped at `0.0` — it neither strictly increases nor stays at 100. -/
theorem calculate_progress_not_strictly_increasing :
    calculate_progress 0 10 5 = 0 ∧ calculate_progress 0 11 5 = 0 ∧
    ¬ (calculate_progress 0 11 5 < calculate_progress 0 10 5 ∨
        calculate_progress 0 10 5 = 100) := by
  have h1 : calculate_progress 0 10 5 = 0 := by
    unfold calculate_progress
    norm_num
  have h2 : calculate_progress 0 11 5 = 0 := by
    unfold calculate_progress
    norm_num
  refine ⟨h1, h2, ?_⟩
  rw [h1, h2]
  norm_num

/-- C5 amended: `calculate_progress` returns exactly 100.0 when
`total_tags <= 1` or the strictly-between count has collapsed to 0; and for a
fixed `total_tags` it strictly increases (or stays at 100) as the
strictly-between count shrinks, provided the count does not exceed
`total_tags` (when the count exceeds `total_tags` the value is clamped at
0.0, where it can also stay as the count shrinks). -/
theorem calculate_progress_spec (g b t : ℕ) :
    (t ≤ 1 ∨ b - g - 1 = 0 → calculate_progress g b t = 100) ∧
    (∀ g2 b2 : ℕ, b2 - g2 - 1 < b - g - 1 → b - g - 1 ≤ t →
      calculate_progress g b t < calculate_progress g2 b2 t ∨
        (calculate_progress g2 b2 t = 100 ∧ calculate_progress g b t = 100)) := by
  constructor
  · intro h
    unfold calculate_progress
    rcases h with h | h
    · rw [if_pos h]
    · rcases le_or_lt t 1 with ht | ht
      · rw [if_pos ht]
      · rw [if_neg (by omega)]
        simp [h]
  · intro g2 b2 hlt hle
    rcases le_or_lt t 1 with ht | ht
    · right
      constructor <;> (unfold calculate_progress; rw [if_pos ht])
    · have hc : 0 < b - g - 1 := by omega
      have hval : calculate_progress g b t =
          (1 - ((b - g - 1 : ℕ) : ℚ) / (t : ℚ)) * 100 := by
        unfold calculate_progress
        rw [if_neg (by omega), if_neg (by omega)]
        exact (calculate_progress_formula (b - g - 1) t hc hle ht).1
      have hvlt : calculate_progress g b t < 100 := by
        rw [hval]
        exact (calculate_progress_formula (b - g - 1) t hc hle ht).2
      left
      rcases Nat.eq_zero_or_pos (b2 - g2 - 1) with hc2 | hc2
      · have h100 : calculate_progress g2 b2 t = 100 := by
          unfold calculate_progress
          rw [if_neg (by omega)]
          simp [hc2]
        rw [h100]
        exact hvlt
      · have hle2 : b2 - g2 - 1 ≤ t := by omega
        have hval2 : calculate_progress g2 b2 t =
            (1 - ((b2 - g2 - 1 : ℕ) : ℚ) / (t : ℚ)) * 100 := by
          unfold calculate_progress
          rw [if_neg (by omega), if_neg (by omega)]
          exact (calculate_progress_formula (b2 - g2 - 1) t hc2 hle2 ht).1
        rw [hval, hval2]
        have htq : (0 : ℚ) < (t : ℚ) := by positivity
        have hdiv : ((b2 - g2 - 1 : ℕ) : ℚ) / (t : ℚ) < ((b - g - 1 : ℕ) : ℚ) / (t : ℚ) := by
          apply div_lt_div_of_pos_right _ htq
          exact_mod_cast hlt
        nlinarith

/-- Witness for the amended C5: with `total_tags = 10`, shrinking the count
from 4 (`good=2, bad=7`) to 3 (`good=2, bad=6`) strictly increases the
progress value. -/
theorem calculate_progress_spec_witness :
    calculate_progress 2 7 10 < calculate_progress 2 6 10 ∨
      (calculate_progress 2 6 10 = 100 ∧ calculate_progress 2 7 10 = 100) :=
  (calculate_progress_spec 2 7 10).2 2 6 (by norm_num) (by norm_num)

/-! ## Theorems: task iteration range constraint (C2) -/

/-- C2 (code/schema divergence): an accepted select-candidates request
(active owned task, 3 candidate indices) creates a `TaskIteration` whose
range bounds are the literal `search_range_start = 0, search_range_end = 0`,
which violates the schema's `check_range_valid` constraint
(`search_range_end > search_range_start`); the claimed invariant fails on
every record this handler creates. -/
theorem select_candidates_violates_check_range_valid :
    ∃ it : TaskIterationRec,
      select_candidates_for_testing "active" 0 1 [2, 4, 6] = .ok it ∧
      it.search_range_start = 0 ∧ it.search_range_end = 0 ∧
      ¬ check_range_valid it := by
  refine ⟨⟨1, 1, 0, 0, [2, 4, 6]⟩, ?_, rfl, rfl, by simp [check_range_valid]⟩
  rfl

/-! ## Theorems: task creation (C3) -/

/-- The claim-level predicate for C3: a tag of the request's project/branch
whose (non-null) sequence number lies in the inclusive range `[gs, bs]`. -/
def claimTagInRange (req : TaskCreate) (gs bs : ℤ) (t : TagRec) : Bool :=
  t.project_id == req.project_id && t.branch_id == req.branch_id &&
    match t.sequence_number with
    | some s => decide (gs ≤ s) && decide (s ≤ bs)
    | none => false

/-- C3: with the request's project, branch and both tags resolving, a good
tag whose resolved sequence number is >= the bad tag's is rejected with the
400-class ordering error (no task is created); and with good strictly below
bad, creation succeeds and the stored `total_tags_in_range` equals the count
of tags of that project/branch whose sequence number lies in
`[good.sequence_number, bad.sequence_number]` inclusive. -/
theorem create_task_spec (db : TaskDB) (userId : ℕ) (req : TaskCreate)
    (pr : ProjectRec) (br : BranchRec) (g b : TagRec)
    (hp : db.projects.find?
      (fun p => p.id == req.project_id && p.created_by == userId) = some pr)
    (hbr : db.branches.find?
      (fun x => x.id == req.branch_id && x.project_id == req.project_id) = some br)
    (hg : db.tags.find? (tagLookup req req.good_tag_name) = some g)
    (hb : db.tags.find? (tagLookup req req.bad_tag_name) = some b) :
    (b.sequence_number.getD 0 ≤ g.sequence_number.getD 0 →
      create_task db userId req = .error .badTagOrder) ∧
    (∀ gs bs : ℤ, g.sequence_number = some gs → b.sequence_number = some bs →
      gs < bs →
      create_task db userId req = .ok (db.tags.countP (claimTagInRange req gs bs))) := by
  constructor
  · intro hord
    unfold create_task
    rw [hp, hbr, hg, hb]
    simp only [if_pos hord]
  · intro gs bs hgs hbs hlt
    have hneg : ¬ b.sequence_number.getD 0 ≤ g.sequence_number.getD 0 := by
      rw [hgs, hbs]
      simp only [Option.getD_some]
      omega
    unfold create_task
    rw [hp, hbr, hg, hb]
    dsimp only
    rw [if_neg hneg]
    have hpred : tagInRange req g b = claimTagInRange req gs bs := by
      funext t
      unfold tagInRange claimTagInRange seqBetween
      rw [hgs, hbs]
      cases t.sequence_number <;> rfl
    rw [hpred]

/-- Witness for C3: a three-tag database where all tags fall in the inclusive
range, so the created task stores `total_tags_in_range = 3`. -/
theorem create_task_spec_witness :
    create_task
      ⟨[⟨1, 7⟩], [⟨2, 1⟩],
        [⟨1, 2, "g", some 0⟩, ⟨1, 2, "b", some 3⟩, ⟨1, 2, "m", some 2⟩]⟩
      7 ⟨1, 2, "g", "b"⟩ = .ok 3 := by
  have h := (create_task_spec
    ⟨[⟨1, 7⟩], [⟨2, 1⟩],
      [⟨1, 2, "g", some 0⟩, ⟨1, 2, "b", some 3⟩, ⟨1, 2, "m", some 2⟩]⟩
    7 ⟨1, 2, "g", "b"⟩ ⟨1, 7⟩ ⟨2, 1⟩ ⟨1, 2, "g", some 0⟩ ⟨1, 2, "b", some 3⟩
    rfl rfl rfl rfl).2 0 3 rfl rfl (by norm_num)
  rw [h]
  rfl

/-! ## Theorems: token verification (C6) -/

/-- C6: `verify_token` returns the invalid result (`none`, never an
exception) whenever the signature does not verify against the configured
key, the token is expired, the `type` claim differs from the requested type,
or the `sub` claim is missing; and for a token signed with the configured
key, unexpired, of the requested type and carrying a subject, it returns
token data with that subject, the `user_id` claim and the scope list. -/
theorem verify_token_spec (now : ℕ) (secret : String) (token : Jwt) (ty : String) :
    (token.key ≠ secret → verify_token now secret token ty = none) ∧
    (token.payload.exp ≤ now → verify_token now secret token ty = none) ∧
    (token.payload.type ≠ some ty → verify_token now secret token ty = none) ∧
    (token.payload.sub = none → verify_token now secret token ty = none) ∧
    (∀ u : String, token.key = secret → now < token.payload.exp →
      token.payload.type = some ty → token.payload.sub = some u →
      verify_token now secret token ty =
        some ⟨u, token.payload.user_id, token.payload.scopes⟩) := by
  refine ⟨?_, ?_, ?_, ?_, ?_⟩
  · intro h
    unfold verify_token jwt_decode
    rw [if_pos h]
  · intro h
    unfold verify_token jwt_decode
    by_cases hk : token.key = secret
    · rw [if_neg (by simp [hk]), if_pos h]
    · rw [if_pos hk]
  · intro h
    unfold verify_token jwt_decode
    by_cases hk : token.key = secret
    · by_cases he : token.payload.exp ≤ now
      · rw [if_neg (by simp [hk]), if_pos he]
      · rw [if_neg (by simp [hk]), if_neg he]
        simp only [Option.some.injEq]
        rw [if_pos h]
    · rw [if_pos hk]
  · intro h
    unfold verify_token jwt_decode
    by_cases hk : token.key = secret
    · by_cases he : token.payload.exp ≤ now
      · rw [if_neg (by simp [hk]), if_pos he]
      · rw [if_neg (by simp [hk]), if_neg he]
        simp only [Option.some.injEq]
        by_cases hty : token.payload.type ≠ some ty
        · rw [if_pos hty]
        · rw [if_neg hty, h]
    · rw [if_pos hk]
  · intro u hk he hty hsub
    unfold verify_token jwt_decode
    rw [if_neg (by simp [hk]), if_neg (by omega)]
    simp only [Option.some.injEq]
    rw [if_neg (by simp [hty]), hsub]

/-- Witness for C6: a well-formed access token verifies to its token data. -/
theorem verify_token_spec_witness :
    verify_token 0 "k" ⟨⟨some "alice", some "7", ["read"], 5, some "access"⟩, "k"⟩
      "access" = some ⟨"alice", some "7", ["read"]⟩ :=
  (verify_token_spec 0 "k" ⟨⟨some "alice", some "7", ["read"], 5, some "access"⟩, "k"⟩
    "access").2.2.2.2 "alice" rfl (by norm_num) rfl rfl

/-! ## Theorems: authenticated-user guard (C7) -/

/-- C7 counterexample: a valid access token resolving to an existing but
inactive user is rejected with status 400 and no `WWW-Authenticate`
challenge header — not with the 401-class challenge response the claim
states. -/
theorem inactive_user_rejected_with_400 :
    ∃ e : AuthError,
      get_current_user 0 "k" []
        ⟨⟨some "alice", none, [], 5, some "access"⟩, "k"⟩ [⟨"alice", false⟩] =
        .error e ∧
      e.status_code = 400 ∧ e.www_authenticate = none ∧ e.status_code ≠ 401 := by
  refine ⟨⟨400, "Inactive user", none⟩, ?_, rfl, rfl, by norm_num⟩
  rfl

/-- C7 amended: the guard rejects an invalid token or a token whose user no
longer exists with the 401 credentials exception carrying a
`WWW-Authenticate` challenge header, but rejects a token resolving to an
inactive account with a 400-class "Inactive user" response without a
challenge header. -/
theorem get_current_user_spec (now : ℕ) (secret : String)
    (scopes : List String) (token : Jwt) (users : List UserRec) :
    (verify_token now secret token "access" = none →
      get_current_user now secret scopes token users =
        .error (credentialsException scopes)) ∧
    (∀ td, verify_token now secret token "access" = some td →
      users.find? (fun u => u.username == td.username) = none →
      get_current_user now secret scopes token users =
        .error (credentialsException scopes)) ∧
    (∀ td u, verify_token now secret token "access" = some td →
      users.find? (fun u2 => u2.username == td.username) = some u →
      u.is_active = false →
      get_current_user now secret scopes token users =
        .error ⟨400, "Inactive user", none⟩) ∧
    (credentialsException scopes).status_code = 401 ∧
    (credentialsException scopes).www_authenticate ≠ none := by
  refine ⟨?_, ?_, ?_, rfl, by simp [credentialsException]⟩
  · intro h
    unfold get_current_user
    rw [h]
  · intro td hv hf
    unfold get_current_user
    rw [hv]
    dsimp only
    rw [hf]
  · intro td u hv hf hina
    unfold get_current_user
    rw [hv]
    dsimp only
    rw [hf]
    dsimp only
    rw [if_pos (by simp [hina])]

/-- Witness for the amended C7 at a concrete inactive account. -/
theorem get_current_user_spec_witness :
    get_current_user 0 "k" []
      ⟨⟨some "bob", none, [], 5, some "access"⟩, "k"⟩ [⟨"bob", false⟩] =
      .error ⟨400, "Inactive user", none⟩ :=
  (get_current_user_spec 0 "k" []
    ⟨⟨some "bob", none, [], 5, some "access"⟩, "k"⟩ [⟨"bob", false⟩]).2.2.1
    ⟨"bob", none, []⟩ ⟨"bob", false⟩ rfl rfl rfl

/-! ## Theorems: feedback upsert (C8) -/

theorem countP_updateFirstFeedback (bid : ℕ) (t : String) (n : Option String) :
    ∀ rows : List FeedbackRow,
      (updateFirstFeedback bid t n rows).countP (fun r => r.build_job_id == bid) =
        rows.countP (fun r => r.build_job_id == bid) := by
  intro rows
  induction rows with
  | nil => rfl
  | cons r rest ih =>
    by_cases hr : (r.build_job_id == bid) = true
    · simp only [updateFirstFeedback, if_pos hr, List.countP_cons, ih]
    · simp only [updateFirstFeedback, if_neg hr, List.countP_cons, ih]

theorem updateFirstFeedback_values (bid : ℕ) (t : String) (n : Option String) :
    ∀ rows : List FeedbackRow,
      rows.countP (fun r => r.build_job_id == bid) ≤ 1 →
      ∀ r ∈ updateFirstFeedback bid t n rows, r.build_job_id = bid →
        r.feedback_type = t ∧ r.notes = n := by
  intro rows
  induction rows with
  | nil => intro _ r hr; simp [updateFirstFeedback] at hr
  | cons x rest ih =>
    intro hc r hr hrb
    by_cases hx : (x.build_job_id == bid) = true
    · rw [updateFirstFeedback, if_pos hx] at hr
      rcases List.mem_cons.1 hr with h | h
      · subst h; exact ⟨rfl, rfl⟩
      · exfalso
        have hrest : rest.countP (fun r2 => r2.build_job_id == bid) = 0 := by
          rw [List.countP_cons] at hc
          simp only [hx, if_pos] at hc
          omega
        have := List.countP_eq_zero.1 hrest r h
        simp [hrb] at this
    · rw [updateFirstFeedback, if_neg hx] at hr
      rcases List.mem_cons.1 hr with h | h
      · subst h
        simp [hrb] at hx
      · refine ih ?_ r h hrb
        rw [List.countP_cons] at hc
        omega

theorem find?_of_countP_pos (bid : ℕ) (rows : List FeedbackRow)
    (h : 0 < rows.countP (fun r => r.build_job_id == bid)) :
    ∃ y, rows.find? (fun r => r.build_job_id == bid) = some y := by
  cases hf : rows.find? (fun r => r.build_job_id == bid) with
  | none =>
    exfalso
    have h0 : rows.countP (fun r => r.build_job_id == bid) = 0 := by
      rw [List.countP_eq_zero]
      exact List.find?_eq_none.1 hf
    omega
  | some y => exact ⟨y, rfl⟩

/-- C8: starting from a `user_feedback` table holding at most one row for a
build job (the invariant the API maintains), submitting feedback twice for
that build job (by an owner of the task) leaves exactly one row for it, and
that row carries the second submission's feedback type and notes. -/
theorem feedback_upsert_spec (jobs : List BuildJobRow) (rows : List FeedbackRow)
    (userId bid : ℕ) (j : BuildJobRow) (t1 t2 : String) (n1 n2 : Option String)
    (hj : jobs.find? (fun x => x.id == bid && x.task_user_id == userId) = some j)
    (hinv : rows.countP (fun r => r.build_job_id == bid) ≤ 1) :
    ∃ r1 r2 : List FeedbackRow,
      submit_build_feedback jobs rows userId bid t1 n1 = .ok r1 ∧
      submit_build_feedback jobs r1 userId bid t2 n2 = .ok r2 ∧
      r2.countP (fun r => r.build_job_id == bid) = 1 ∧
      ∀ r ∈ r2, r.build_job_id = bid → r.feedback_type = t2 ∧ r.notes = n2 := by
  have step2 : ∀ r1 : List FeedbackRow,
      r1.countP (fun r => r.build_job_id == bid) = 1 →
      ∃ r2, submit_build_feedback jobs r1 userId bid t2 n2 = .ok r2 ∧
        r2.countP (fun r => r.build_job_id == bid) = 1 ∧
        ∀ r ∈ r2, r.build_job_id = bid → r.feedback_type = t2 ∧ r.notes = n2 := by
    intro r1 hc1
    obtain ⟨y, hy⟩ := find?_of_countP_pos bid r1 (by omega)
    refine ⟨updateFirstFeedback bid t2 n2 r1, ?_, ?_, ?_⟩
    · unfold submit_build_feedback
      rw [hj]
      dsimp only
      rw [hy]
    · rw [countP_updateFirstFeedback]
      exact hc1
    · exact updateFirstFeedback_values bid t2 n2 r1 (by omega)
  cases hc : rows.find? (fun r => r.build_job_id == bid) with
  | none =>
    have hcount0 : rows.countP (fun r => r.build_job_id == bid) = 0 := by
      rw [List.countP_eq_zero]
      exact List.find?_eq_none.1 hc
    have h1 : submit_build_feedback jobs rows userId bid t1 n1 =
        .ok (rows ++ [⟨j.task_id, j.iteration_id, bid, j.tag_id, t1, n1, userId⟩]) := by
      unfold submit_build_feedback
      rw [hj]
      dsimp only
      rw [hc]
    have hcount1 : (rows ++ [(⟨j.task_id, j.iteration_id, bid, j.tag_id, t1, n1,
        userId⟩ : FeedbackRow)]).countP (fun r => r.build_job_id == bid) = 1 := by
      rw [List.countP_append, hcount0]
      simp
    obtain ⟨r2, h2, hc2, hv2⟩ := step2 _ hcount1
    exact ⟨_, r2, h1, h2, hc2, hv2⟩
  | some x =>
    have hcpos : 0 < rows.countP (fun r => r.build_job_id == bid) := by
      have hx := List.find?_some hc
      rw [List.countP_pos_iff]
      exact ⟨x, List.mem_of_find?_eq_some hc, hx⟩
    have h1 : submit_build_feedback jobs rows userId bid t1 n1 =
        .ok (updateFirstFeedback bid t1 n1 rows) := by
      unfold submit_build_feedback
      rw [hj]
      dsimp only
      rw [hc]
    have hcount1 : (updateFirstFeedback bid t1 n1 rows).countP
        (fun r => r.build_job_id == bid) = 1 := by
      rw [countP_updateFirstFeedback]
      omega
    obtain ⟨r2, h2, hc2, hv2⟩ := step2 _ hcount1
    exact ⟨_, r2, h1, h2, hc2, hv2⟩

/-- Witness for C8: two submissions against an empty feedback table. -/
theorem feedback_upsert_spec_witness :
    ∃ r1 r2 : List FeedbackRow,
      submit_build_feedback [⟨1, 4, 5, 6, 9⟩] [] 9 1 "working" none = .ok r1 ∧
      submit_build_feedback [⟨1, 4, 5, 6, 9⟩] r1 9 1 "broken" (some "note") = .ok r2 ∧
      r2.countP (fun r => r.build_job_id == 1) = 1 ∧
      ∀ r ∈ r2, r.build_job_id = 1 →
        r.feedback_type = "broken" ∧ r.notes = some "note" :=
  feedback_upsert_spec [⟨1, 4, 5, 6, 9⟩] [] 9 1 ⟨1, 4, 5, 6, 9⟩
    "working" "broken" none (some "note") rfl (by simp)

/-! ## Theorems: build cancellation (C9) -/

/-- C9: cancelling a build job not yet in a terminal state always leaves the
local record with status `cancelled` and a non-null completion timestamp —
for every outcome of the external call (returned boolean, raised exception)
and whether or not a service configuration or external build id exists;
cancelling a job already terminal reports that and leaves the record
unchanged. -/
theorem cancel_build_spec (now : ℕ) (job : CancelJobRec) (hasConfig : Bool)
    (ext : ExtCancelOutcome) :
    ((["success", "failed", "cancelled"] : List String).contains job.status = false →
      (cancel_build now job hasConfig ext).1.status = "cancelled" ∧
      ∃ t, (cancel_build now job hasConfig ext).1.completed_at = some t) ∧
    ((["success", "failed", "cancelled"] : List String).contains job.status = true →
      cancel_build now job hasConfig ext = (job, .alreadyCompleted job.status)) := by
  constructor
  · intro h
    unfold cancel_build
    rw [if_neg (by rw [h]; exact Bool.false_ne_true)]
    exact ⟨rfl, _, rfl⟩
  · intro h
    unfold cancel_build
    rw [if_pos h]

/-- Witness for C9: a running build with an external id whose external
cancellation raises still reaches status `cancelled` with a completion
timestamp. -/
theorem cancel_build_spec_witness :
    (cancel_build 5 ⟨"running", none, some "ext-1"⟩ true .exn).1.status = "cancelled" ∧
    ∃ t, (cancel_build 5 ⟨"running", none, some "ext-1"⟩ true .exn).1.completed_at =
      some t :=
  (cancel_build_spec 5 ⟨"running", none, some "ext-1"⟩ true .exn).1 (by decide)

/-! ## Theorems: session bounds are frame-invariant (C10) -/

theorem generate_candidates_isSome (good bad : ℕ) (h : good < bad) :
    ∃ l, generate_candidates good bad = some l := by
  unfold generate_candidates
  rw [if_neg (by omega)]
  dsimp only
  by_cases hr : bad - good - 1 ≤ 10
  · rw [if_pos hr]
    exact ⟨_, rfl⟩
  · rw [if_neg hr]
    by_cases hl : (List.insertionSort (· ≤ ·) (candLoop good bad 10)).length < 10
    · rw [if_pos hl]
      exact ⟨_, rfl⟩
    · rw [if_neg hl]
      exact ⟨_, rfl⟩

/-- C10: when the candidates endpoint finds an existing `TaskSession` whose
stored range is not yet adjacent, it returns the state with the session's
`current_range_start`/`current_range_end` unchanged and candidates generated
from exactly those bounds; a repeated retrieval on the resulting state
returns the same response (same range, same candidates); and build-feedback
submission never modifies the stored session. -/
theorem session_bounds_frame (numTags : ℕ) (st : TaskState) (s : SessionRec)
    (hact : st.task_status = "active") (h3 : 3 ≤ numTags)
    (hs : st.session = some s)
    (hlt : s.current_range_start < s.current_range_end)
    (hadj : s.current_range_end - s.current_range_start ≠ 1) :
    (∃ resp : CandidatesResponse,
      get_binary_search_candidates numTags st = .ok (st, resp) ∧
      resp.range_start = s.current_range_start ∧
      resp.range_end = s.current_range_end ∧
      generate_candidates s.current_range_start s.current_range_end =
        some resp.candidates) ∧
    (∀ st2 resp, get_binary_search_candidates numTags st = .ok (st2, resp) →
      st2.session = st.session ∧
      get_binary_search_candidates numTags st2 = .ok (st2, resp)) ∧
    (∀ jobs userId bid ftype notes st2,
      submit_build_feedback_endpoint jobs st userId bid ftype notes = .ok st2 →
      st2.session = st.session) := by
  obtain ⟨cs, hcs⟩ :=
    generate_candidates_isSome s.current_range_start s.current_range_end hlt
  have h1 : get_binary_search_candidates numTags st =
      .ok (st, ⟨st.current_iteration + 1, s.current_range_start,
        s.current_range_end, cs, false⟩) := by
    unfold get_binary_search_candidates
    rw [if_neg (by simp [hact]), if_neg (by omega), hs]
    dsimp only
    rw [if_neg (by simp [is_complete, hadj]), hcs]
  refine ⟨⟨_, h1, rfl, rfl, hcs⟩, ?_, ?_⟩
  · intro st2 resp h
    rw [h1] at h
    injection h with h
    injection h with hst hresp
    subst hst
    subst hresp
    exact ⟨rfl, h1⟩
  · intro jobs userId bid ftype notes st2 h
    unfold submit_build_feedback_endpoint at h
    cases hsub : submit_build_feedback jobs st.feedback_rows userId bid ftype notes with
    | error e =>
      rw [hsub] at h
      cases h
    | ok rows =>
      rw [hsub] at h
      injection h with h
      subst h
      rfl

/-- Witness for C10 on a concrete five-tag state. -/
theorem session_bounds_frame_witness :
    ∃ resp : CandidatesResponse,
      get_binary_search_candidates 5 ⟨"active", 0, none, some ⟨0, 4⟩, []⟩ =
        .ok (⟨"active", 0, none, some ⟨0, 4⟩, []⟩, resp) ∧
      resp.range_start = 0 ∧ resp.range_end = 4 ∧
      generate_candidates 0 4 = some resp.candidates :=
  (session_bounds_frame 5 ⟨"active", 0, none, some ⟨0, 4⟩, []⟩ ⟨0, 4⟩
    rfl (by norm_num) rfl (by norm_num) (by norm_num)).1

end Vils
